import Mathlib

/-!
Restricted zone notifier: verification of `application/src/main.cpp`.

A shallow embedding of the monitoring pipeline of `main.cpp`:

* the single-slot frame queue (`nextImageAvailable`, `addImage`),
* the shared status (`getCurrentInfo`, `updateInfo`, `resetInfo`),
* the payload built by `publishMQTTMessage`,
* the body of `frameRunner` (detection loop and person loop),
* the loop of `messageRunner`,
* `handle_sigterm` and one iteration of the driving loop of `main`.

Conventions.  C++ `int` values are mathematical integers (`Int`): pixel
coordinates stay far below `2^31`, so no arithmetic here wraps.  C++ `float`
values are idealised as rationals (`ℚ`); every statement below is about the
integers obtained after the conversion `(int)(...)`, never about rounding.
Mutexes only delimit the atomic sections, so each locked function is one
atomic state transformer.
-/

namespace RestrictedZone

/-! ## OpenCV value types used by the program -/

/-- The class `cv::Rect` (`cv::Rect_<int>`): top-left corner and size. -/
structure Rect where
  x : Int
  y : Int
  width : Int
  height : Int
  deriving DecidableEq, Repr

namespace Rect

/-- The default constructor `Rect()`: all four fields are zero. -/
def zero : Rect := ⟨0, 0, 0, 0⟩

/-- The operator `a & b` of `cv::Rect` (from `opencv2/core/types.hpp`):

    x1 = max(a.x, b.x); y1 = max(a.y, b.y);
    a.width  = min(a.x + a.width,  b.x + b.width)  - x1;
    a.height = min(a.y + a.height, b.y + b.height) - y1;
    a.x = x1; a.y = y1;
    if (a.width <= 0 || a.height <= 0) a = Rect();

An empty intersection is therefore always the all-zero rectangle.  (Later
OpenCV releases rewrite the body to avoid overflow and compute the same
rectangle.) -/
def inter (a b : Rect) : Rect :=
  let x1 := max a.x b.x
  let y1 := max a.y b.y
  let width := min (a.x + a.width) (b.x + b.width) - x1
  let height := min (a.y + a.height) (b.y + b.height) - y1
  if width ≤ 0 ∨ height ≤ 0 then zero else ⟨x1, y1, width, height⟩

/-- Closed-interval containment of `r` in `z`: each edge of `r` lies within
the edges of `z`, coinciding edges included. -/
def within (r z : Rect) : Prop :=
  z.x ≤ r.x ∧ z.y ≤ r.y ∧ r.x + r.width ≤ z.x + z.width ∧ r.y + r.height ≤ z.y + z.height

instance (r z : Rect) : Decidable (within r z) := by
  unfold within; infer_instance

end Rect

/-- The part of `cv::Mat` the program looks at: the dimensions and the pixel
buffer (kept abstract as a list of numbers). -/
structure Mat where
  rows : Nat
  cols : Nat
  data : List Nat
  deriving DecidableEq, Repr

namespace Mat

/-- The default constructor `Mat()`: no dimensions, no buffer. -/
def none : Mat := ⟨0, 0, []⟩

/-- The method `Mat::empty()`: `data == 0 || total() == 0`. -/
def empty (m : Mat) : Bool := m.data.isEmpty || m.rows * m.cols == 0

end Mat

/-! ## Program state -/

/-- The struct `AssemblyInfo`. -/
structure AssemblyInfo where
  safe : Bool
  alert : Bool
  deriving DecidableEq, Repr

/-- The initial value of the global `currentInfo`. -/
def currentInfo : AssemblyInfo := ⟨true, false⟩

/-- The constant `topic`. -/
def topic : String := "machine/zone"

/-! ## Frame queue (`nextImage`, guarded by mutex `m`) -/

/-- The function `nextImageAvailable`: returns the front of the queue and pops
it, or returns a default `Mat` when the queue is empty.  The result is the
returned image and the queue afterwards. -/
def nextImageAvailable (nextImage : List Mat) : Mat × List Mat :=
  match nextImage with
  | [] => (Mat.none, [])
  | front :: rest => (front, rest)

/-- The function `addImage`: pushes only when the queue is empty. -/
def addImage (img : Mat) (nextImage : List Mat) : List Mat :=
  if nextImage.isEmpty then nextImage ++ [img] else nextImage

/-! ## Shared status (`currentInfo`, guarded by mutex `m2`) -/

/-- The function `getCurrentInfo`: a copy of `currentInfo`. -/
def getCurrentInfo (cur : AssemblyInfo) : AssemblyInfo := cur

/-- The function `updateInfo`: copies both fields of `info`. -/
def updateInfo (info : AssemblyInfo) (cur : AssemblyInfo) : AssemblyInfo :=
  { cur with safe := info.safe, alert := info.alert }

/-- The function `resetInfo`: both fields become `false`. -/
def resetInfo (cur : AssemblyInfo) : AssemblyInfo :=
  { cur with safe := false, alert := false }

/-! ## frameRunner -/

/-- One 7-float row of the detector output `result`:
`data[i] .. data[i + 6]`. -/
structure DetectionRow where
  imageId : ℚ
  label : ℚ
  confidence : ℚ
  xmin : ℚ
  ymin : ℚ
  xmax : ℚ
  ymax : ℚ

/-- The conversion `(int)(v * n)`: the product, truncated toward zero. -/
def toPixel (v : ℚ) (n : Nat) : Int :=
  let p := v * (n : ℚ)
  Int.tdiv p.num (p.den : Int)

/-- The rectangle pushed for one kept row (lines 244-251). -/
def personRect (left top right bottom : Int) : Rect :=
  ⟨left, top, right - left + 1, bottom - top + 1⟩

/-- The detection loop of `frameRunner` (lines 238-253): rows whose confidence
is strictly above `confidenceFactor` are turned into rectangles, scaled by the
size of the global `frame`. -/
def detectionLoop (confidenceFactor : ℚ) (frame : Mat) : List DetectionRow → List Rect
  | [] => []
  | d :: rest =>
    if d.confidence > confidenceFactor then
      personRect (toPixel d.xmin frame.cols) (toPixel d.ymin frame.rows)
          (toPixel d.xmax frame.cols) (toPixel d.ymax frame.rows)
        :: detectionLoop confidenceFactor frame rest
    else detectionLoop confidenceFactor frame rest

/-- The in-frame test of line 258, negated: the rectangle is kept when
`(r & Rect(0, 0, cols, rows)) == r`. -/
def inFrame (r : Rect) (cols rows : Nat) : Bool :=
  decide (r.inter ⟨0, 0, (cols : Int), (rows : Int)⟩ = r)

/-- The in-zone test of line 264: `(r & area) == r`. -/
def inArea (r area : Rect) : Bool := decide (r.inter area = r)

/-- One pass of the body of the person loop (lines 256-268) over the flags
`safe` and `alert`. -/
def personStep (area : Rect) (cols rows : Nat) (info : AssemblyInfo) (r : Rect) :
    AssemblyInfo :=
  if r.inter ⟨0, 0, (cols : Int), (rows : Int)⟩ ≠ r then info
  else if r.inter area = r then { safe := false, alert := true }
  else info

/-- The person loop of `frameRunner` (lines 235-236 and 255-273): the flags
start as `safe = true`, `alert = false`; the result is the `AssemblyInfo`
handed to `updateInfo`. -/
def personLoop (persons : List Rect) (area : Rect) (cols rows : Nat) : AssemblyInfo :=
  persons.foldl (personStep area cols rows) { safe := true, alert := false }

/-- The verdict of one `frameRunner` iteration on a non-empty image `next`:
the detection loop followed by the person loop. -/
def frameVerdict (confidenceFactor : ℚ) (frame next : Mat) (result : List DetectionRow)
    (area : Rect) : AssemblyInfo :=
  personLoop (detectionLoop confidenceFactor frame result) area next.cols next.rows

/-- One iteration of the loop of `frameRunner` (lines 224-278) over the queue
and the shared status, given the detector output `result` for the image taken.
Returns `none` when the loop condition `keepRunning.load()` fails. -/
def frameRunnerIteration (confidenceFactor : ℚ) (frame : Mat) (area : Rect)
    (result : List DetectionRow) (keepRunning : Bool) (nextImage : List Mat)
    (cur : AssemblyInfo) : Option (Bool × List Mat × AssemblyInfo) :=
  if keepRunning then
    let taken := nextImageAvailable nextImage
    if ¬ taken.1.empty then
      some (keepRunning, taken.2,
        updateInfo (frameVerdict confidenceFactor frame taken.1 result area) cur)
    else some (keepRunning, taken.2, cur)
  else none

/-! ## publishMQTTMessage and messageRunner -/

/-- The text written by `std::ostream::operator<<(bool)` on a stream with the
default format flags (`std::boolalpha` is not set anywhere in the program):
the digit `1` for `true` and the digit `0` for `false`. -/
def streamBool (b : Bool) : String := if b then "1" else "0"

/-- The payload built at lines 201-203 of `publishMQTTMessage`. -/
def payload (info : AssemblyInfo) : String :=
  "\x7b\"Safe\": \"" ++ streamBool info.safe ++ "\"\x7d"

/-- The function `publishMQTTMessage` over the trace of `mqtt_publish` calls
(topic and payload of each call, oldest first); the `syslog` lines are left
out. -/
def publishMQTTMessage (topic : String) (info : AssemblyInfo)
    (published : List (String × String)) : List (String × String) :=
  published ++ [(topic, payload info)]

/-- What one evaluation of the loop condition of `messageRunner` and the
following `getCurrentInfo` observe of the shared variables. -/
structure Tick where
  keepRunning : Bool
  currentInfo : AssemblyInfo

/-- The loop of `messageRunner` (lines 285-289) run against the successive
observations `ticks`.  The result is the trace of `mqtt_publish` calls and
whether the loop has exited (`false`: the observations ran out while the loop
was still running). -/
def messageRunner : List Tick → List (String × String) → List (String × String) × Bool
  | [], published => (published, false)
  | t :: rest, published =>
    if t.keepRunning then
      messageRunner rest (publishMQTTMessage topic (getCurrentInfo t.currentInfo) published)
    else (published, true)

/-- One iteration of the loop of `messageRunner` over the flag and the trace;
`none` when the loop condition fails. -/
def messageRunnerIteration (keepRunning : Bool) (cur : AssemblyInfo)
    (published : List (String × String)) : Option (Bool × List (String × String)) :=
  if keepRunning then
    some (keepRunning, publishMQTTMessage topic (getCurrentInfo cur) published)
  else none

/-! ## Signal handler and driving loop of `main` -/

/-- The signal number `SIGTERM` of `<csignal>`. -/
def SIGTERM : Int := 15

/-- The function `handle_sigterm` over the value of `sig_caught`. -/
def handle_sigterm (signum : Int) (sig_caught : Int) : Int :=
  if signum = SIGTERM then 1 else sig_caught

/-- The zone normalisation of the driving loop (lines 376-389). -/
def normalizeArea (area : Rect) (frame : Mat) : Rect :=
  let a1 : Rect := if area.x < 0 ∨ area.y < 0 then { area with x := 0, y := 0 } else area
  let a2 : Rect := if a1.width ≤ 0 then { a1 with width := (frame.cols : Int) } else a1
  if a2.height ≤ 0 then { a2 with height := (frame.rows : Int) } else a2

/-- The globals the driving loop reads and writes. -/
structure MainState where
  frame : Mat
  area : Rect
  keepRunning : Bool
  nextImage : List Mat
  deriving DecidableEq, Repr

/-- What one iteration of the driving loop receives from outside: the image
stored by `cap.read`, the key returned by `waitKey`, the rectangle `selectROI`
returns if it is called, and the value of `sig_caught` read at line 426. -/
structure MainInput where
  captured : Mat
  keyPressed : Int
  selected : Rect
  sig_caught : Int

/-- Outcome of one iteration of the driving loop: the globals afterwards,
whether the loop was left by `break`, and the value of `area` at the call of
`addImage` (`none` when the iteration does not reach line 409). -/
structure MainStep where
  state : MainState
  exited : Bool
  zoneAtAddImage : Option Rect
  deriving DecidableEq, Repr

/-- Lines 406-430 of the driving loop: hand the frame to the queue, then test
`sig_caught`.  Drawing and display calls are left out. -/
def mainHandOff (s : MainState) (inp : MainInput) : MainStep :=
  let s1 : MainState := { s with nextImage := addImage s.frame s.nextImage }
  if inp.sig_caught ≠ 0 then
    { state := { s1 with keepRunning := false }, exited := true, zoneAtAddImage := some s1.area }
  else { state := s1, exited := false, zoneAtAddImage := some s1.area }

/-- One iteration of the driving loop `for (;;)` of `main` (lines 367-431). -/
def mainIteration (s : MainState) (inp : MainInput) : MainStep :=
  let s1 : MainState := { s with frame := inp.captured }
  if s1.frame.empty then
    { state := { s1 with keepRunning := false }, exited := true, zoneAtAddImage := none }
  else
    let s2 : MainState := { s1 with area := normalizeArea s1.area s1.frame }
    if inp.keyPressed = 99 then
      mainHandOff { s2 with area := inp.selected } inp
    else if inp.keyPressed = 27 then
      { state := { s2 with keepRunning := false }, exited := true, zoneAtAddImage := none }
    else mainHandOff s2 inp

/-! ## Histories used in the statements -/

/-- A write to `currentInfo`: an `updateInfo` call made by `frameRunner` with
the verdict of one iteration, or a `resetInfo` call. -/
inductive InfoOp where
  | update (confidenceFactor : ℚ) (frame next : Mat) (result : List DetectionRow) (area : Rect)
  | reset

/-- Effect of one write on `currentInfo`. -/
def InfoOp.apply (cur : AssemblyInfo) : InfoOp → AssemblyInfo
  | .update c frame next result area => updateInfo (frameVerdict c frame next result area) cur
  | .reset => resetInfo cur

/-- Whether a write is an `updateInfo` call. -/
def InfoOp.isUpdate : InfoOp → Bool
  | .update .. => true
  | .reset => false

/-- The value of `currentInfo` after a sequence of writes, oldest first. -/
def runInfoOps (ops : List InfoOp) : AssemblyInfo :=
  ops.foldl InfoOp.apply currentInfo

/-- A call on the frame queue. -/
inductive QueueOp where
  | add (img : Mat)
  | next

/-- Effect of one call on the queue. -/
def QueueOp.apply (nextImage : List Mat) : QueueOp → List Mat
  | .add img => addImage img nextImage
  | .next => (nextImageAvailable nextImage).2

/-- The queue after a sequence of calls starting from the empty queue. -/
def runQueueOps (ops : List QueueOp) : List Mat :=
  ops.foldl QueueOp.apply []

/-! ## Rectangle intersection -/

/-- For a rectangle of positive size, `(r & z) == r` is closed-interval
containment of `r` in `z`. -/
theorem Rect.inter_eq_self_iff (r z : Rect) (hw : 0 < r.width) (hh : 0 < r.height) :
    r.inter z = r ↔ r.within z := by
  obtain ⟨x, y, w, h⟩ := r
  obtain ⟨zx, zy, zw, zh⟩ := z
  simp only [Rect.inter, Rect.within, Rect.zero] at *
  constructor
  · intro hEq
    split at hEq
    · simp only [Rect.mk.injEq] at hEq
      omega
    · simp only [Rect.mk.injEq] at hEq
      omega
  · rintro ⟨h1, h2, h3, h4⟩
    rw [if_neg (by omega)]
    simp only [Rect.mk.injEq]
    omega

/-- For a rectangle without area, `(r & z) == r` holds exactly when `r` is the
all-zero rectangle, whatever `z` is. -/
theorem Rect.inter_eq_self_of_empty (r z : Rect) (he : r.width ≤ 0 ∨ r.height ≤ 0) :
    r.inter z = r ↔ r = Rect.zero := by
  obtain ⟨x, y, w, h⟩ := r
  obtain ⟨zx, zy, zw, zh⟩ := z
  simp only [Rect.inter, Rect.zero] at *
  rw [if_pos (by omega)]
  exact eq_comm

/-! ## Person loop -/

/-- The flags after the person loop started from `info`: raised as soon as
one rectangle passes both tests, otherwise left as they were. -/
theorem foldl_personStep (area : Rect) (cols rows : Nat) (persons : List Rect)
    (info : AssemblyInfo) :
    persons.foldl (personStep area cols rows) info =
      if persons.any (fun r => inFrame r cols rows && inArea r area) then
        { safe := false, alert := true }
      else info := by
  induction persons generalizing info with
  | nil => simp
  | cons r rest ih =>
    rw [List.foldl_cons, ih]
    by_cases h1 : r.inter ⟨0, 0, (cols : Int), (rows : Int)⟩ = r
    · by_cases h2 : r.inter area = r
      · simp [personStep, inFrame, inArea, h1, h2]
      · simp [personStep, inFrame, inArea, h1, h2]
    · simp [personStep, inFrame, inArea, h1]

/-- The verdict of the person loop, in closed form. -/
theorem personLoop_eq (persons : List Rect) (area : Rect) (cols rows : Nat) :
    personLoop persons area cols rows =
      if persons.any (fun r => inFrame r cols rows && inArea r area) then
        { safe := false, alert := true }
      else { safe := true, alert := false } := by
  unfold personLoop
  exact foldl_personStep area cols rows persons _

/-- The person loop always hands over `safe == !alert`. -/
theorem personLoop_safe_eq_not_alert (persons : List Rect) (area : Rect) (cols rows : Nat) :
    (personLoop persons area cols rows).safe = !(personLoop persons area cols rows).alert := by
  rw [personLoop_eq]
  split <;> rfl

/-- The alert is raised exactly when some rectangle passes the in-frame test
and the in-zone test of the code. -/
theorem personLoop_alert_iff_tests (persons : List Rect) (area : Rect) (cols rows : Nat) :
    (personLoop persons area cols rows).alert = true ↔
      ∃ r ∈ persons, inFrame r cols rows = true ∧ inArea r area = true := by
  rw [personLoop_eq]
  split
  · rename_i h
    simp only [List.any_eq_true, Bool.and_eq_true] at h
    simpa using h
  · rename_i h
    simp only [List.any_eq_true, Bool.and_eq_true] at h
    simp only [Bool.false_eq_true, false_iff]
    exact h

/-- On rectangles of positive width and height the alert is raised exactly
when one of them lies, edges included, inside the frame rectangle
`(0, 0, cols, rows)` and inside the zone. -/
theorem personLoop_alert_iff_within (persons : List Rect) (area : Rect) (cols rows : Nat)
    (hpos : ∀ r ∈ persons, 0 < r.width ∧ 0 < r.height) :
    (personLoop persons area cols rows).alert = true ↔
      ∃ r ∈ persons, r.within ⟨0, 0, (cols : Int), (rows : Int)⟩ ∧ r.within area := by
  rw [personLoop_alert_iff_tests]
  constructor
  · rintro ⟨r, hr, h1, h2⟩
    refine ⟨r, hr, ?_, ?_⟩
    · exact (Rect.inter_eq_self_iff r _ (hpos r hr).1 (hpos r hr).2).1 (of_decide_eq_true h1)
    · exact (Rect.inter_eq_self_iff r _ (hpos r hr).1 (hpos r hr).2).1 (of_decide_eq_true h2)
  · rintro ⟨r, hr, h1, h2⟩
    refine ⟨r, hr, ?_, ?_⟩
    · exact decide_eq_true ((Rect.inter_eq_self_iff r _ (hpos r hr).1 (hpos r hr).2).2 h1)
    · exact decide_eq_true ((Rect.inter_eq_self_iff r _ (hpos r hr).1 (hpos r hr).2).2 h2)

/-- A rectangle that fails the in-frame test has no effect on the verdict,
wherever it stands in the list. -/
theorem personLoop_discard (pre post : List Rect) (r area : Rect) (cols rows : Nat)
    (h : inFrame r cols rows = false) :
    personLoop (pre ++ r :: post) area cols rows = personLoop (pre ++ post) area cols rows := by
  simp [personLoop_eq, List.any_append, h]

/-! ## Zone verdict of frameRunner -/

/-- C1 (evaluation of the code at a degenerate detection).  In a 640x480 frame
with zone `(100,100,50,50)`, a detector row with confidence 0.9 and corners
`xmin = ymin = 0`, `xmax = -0.002`, `ymax = -0.003` becomes the rectangle
`(0,0,0,0)`; this rectangle is not inside the zone, yet it passes both tests of
the person loop and the verdict is `safe = false`, `alert = true`, so the
alert is raised although no box lies inside frame and zone. -/
theorem frameVerdict_zero_size_box_alert :
    detectionLoop (1 / 2) ⟨480, 640, [0]⟩ [⟨0, 1, 9 / 10, 0, 0, -2 / 1000, -3 / 1000⟩]
        = [⟨0, 0, 0, 0⟩] ∧
      ¬ Rect.within ⟨0, 0, 0, 0⟩ ⟨100, 100, 50, 50⟩ ∧
      personLoop [⟨0, 0, 0, 0⟩] ⟨100, 100, 50, 50⟩ 640 480 = ⟨false, true⟩ ∧
      frameVerdict (1 / 2) ⟨480, 640, [0]⟩ ⟨480, 640, [0]⟩
        [⟨0, 1, 9 / 10, 0, 0, -2 / 1000, -3 / 1000⟩] ⟨100, 100, 50, 50⟩ = ⟨false, true⟩ ∧
      ¬ ((personLoop [⟨0, 0, 0, 0⟩] ⟨100, 100, 50, 50⟩ 640 480).alert = true ↔
          ∃ r ∈ [(⟨0, 0, 0, 0⟩ : Rect)],
            r.within ⟨0, 0, 640, 480⟩ ∧ r.within ⟨100, 100, 50, 50⟩) := by
  decide!

/-- Scenario A: zone `(100,100,50,50)` and detection `(100,100,50,50)` in a
640x480 frame give `safe = false`, `alert = true`. -/
theorem scenario_A :
    personLoop [⟨100, 100, 50, 50⟩] ⟨100, 100, 50, 50⟩ 640 480 = ⟨false, true⟩ := by
  decide

/-- Scenario C: the detection `(620,0,40,40)` exceeds the frame width 640 and
is discarded, wherever it stands among the other detections. -/
theorem scenario_C (pre post : List Rect) (area : Rect) :
    personLoop (pre ++ ⟨620, 0, 40, 40⟩ :: post) area 640 480
      = personLoop (pre ++ post) area 640 480 :=
  personLoop_discard pre post _ area 640 480 (by decide)

/-- C10.  A detector row is kept exactly when its confidence is strictly above
`confidenceFactor` (an equal confidence is dropped).  When the pixel edges of a
row satisfy `left <= right` and `top <= bottom`, the rectangle
`Rect(left, top, right-left+1, bottom-top+1)` passes the in-frame test if and
only if `0 <= left`, `0 <= top`, `right <= cols-1` and `bottom <= rows-1`; a
rectangle whose right edge equals `cols` or whose bottom edge equals `rows` is
discarded and does not change the verdict, whatever the zone and the other
detections. -/
theorem detection_inFrame_iff (confidenceFactor : ℚ) (frame : Mat) (d : DetectionRow)
    (cols rows : Nat) :
    (confidenceFactor < d.confidence →
        detectionLoop confidenceFactor frame [d] =
          [personRect (toPixel d.xmin frame.cols) (toPixel d.ymin frame.rows)
            (toPixel d.xmax frame.cols) (toPixel d.ymax frame.rows)]) ∧
      (d.confidence ≤ confidenceFactor → detectionLoop confidenceFactor frame [d] = []) ∧
      (toPixel d.xmin frame.cols ≤ toPixel d.xmax frame.cols →
        toPixel d.ymin frame.rows ≤ toPixel d.ymax frame.rows →
        (inFrame (personRect (toPixel d.xmin frame.cols) (toPixel d.ymin frame.rows)
              (toPixel d.xmax frame.cols) (toPixel d.ymax frame.rows)) cols rows = true ↔
            0 ≤ toPixel d.xmin frame.cols ∧ 0 ≤ toPixel d.ymin frame.rows ∧
              toPixel d.xmax frame.cols ≤ (cols : Int) - 1 ∧
              toPixel d.ymax frame.rows ≤ (rows : Int) - 1) ∧
          (toPixel d.xmax frame.cols = (cols : Int) ∨ toPixel d.ymax frame.rows = (rows : Int) →
            ∀ (pre post : List Rect) (area : Rect),
              personLoop (pre ++ personRect (toPixel d.xmin frame.cols)
                  (toPixel d.ymin frame.rows) (toPixel d.xmax frame.cols)
                  (toPixel d.ymax frame.rows) :: post) area cols rows
                = personLoop (pre ++ post) area cols rows)) := by
  refine ⟨?_, ?_, ?_⟩
  · intro h
    simp [detectionLoop, h]
  · intro h
    simp [detectionLoop, not_lt.mpr h]
  · generalize toPixel d.xmin frame.cols = left
    generalize toPixel d.ymin frame.rows = top
    generalize toPixel d.xmax frame.cols = right
    generalize toPixel d.ymax frame.rows = bottom
    intro hx hy
    have hiff : inFrame (personRect left top right bottom) cols rows = true ↔
        0 ≤ left ∧ 0 ≤ top ∧ right ≤ (cols : Int) - 1 ∧ bottom ≤ (rows : Int) - 1 := by
      unfold inFrame
      rw [decide_eq_true_iff,
        Rect.inter_eq_self_iff _ _ (by simp only [personRect]; omega)
          (by simp only [personRect]; omega)]
      simp only [Rect.within, personRect]
      omega
    refine ⟨hiff, ?_⟩
    intro hedge pre post area
    apply personLoop_discard
    rw [Bool.eq_false_iff]
    intro hin
    have := hiff.1 hin
    omega

/-- Witness for C10: a row with confidence 0.9 over the threshold 0.5 whose
corners are `(0.5, 0.5)` and `(1.0, 1.0)` in a 640x480 frame. -/
theorem detection_inFrame_iff_witness :
    toPixel (1 / 2) 640 ≤ toPixel 1 640 ∧ toPixel (1 / 2) 480 ≤ toPixel 1 480 ∧
      toPixel 1 640 = ((640 : Nat) : Int) ∧
      personLoop [personRect (toPixel (1 / 2) 640) (toPixel (1 / 2) 480) (toPixel 1 640)
          (toPixel 1 480)] ⟨0, 0, 640, 480⟩ 640 480
        = personLoop [] ⟨0, 0, 640, 480⟩ 640 480 :=
  ⟨by decide!, by decide!, by decide!,
    ((detection_inFrame_iff (1 / 2) ⟨480, 640, [0]⟩ ⟨0, 1, 9 / 10, 1 / 2, 1 / 2, 1, 1⟩ 640 480).2.2
      (by decide!) (by decide!)).2 (Or.inl (by decide!)) [] [] ⟨0, 0, 640, 480⟩⟩

/-! ## Zone normalisation -/

/-- The normalised zone, field by field. -/
theorem normalizeArea_fields (area : Rect) (frame : Mat) :
    normalizeArea area frame =
      ⟨if area.x < 0 ∨ area.y < 0 then 0 else area.x,
        if area.x < 0 ∨ area.y < 0 then 0 else area.y,
        if area.width ≤ 0 then (frame.cols : Int) else area.width,
        if area.height ≤ 0 then (frame.rows : Int) else area.height⟩ := by
  obtain ⟨x, y, w, h⟩ := area
  unfold normalizeArea
  by_cases h1 : x < 0 ∨ y < 0 <;> by_cases h2 : w ≤ 0 <;> by_cases h3 : h ≤ 0 <;>
    simp [h1, h2, h3]

/-- In a frame of positive size the normalised zone has a non-negative origin
and a positive width and height. -/
theorem normalizeArea_pos (area : Rect) (frame : Mat) (hc : 0 < frame.cols)
    (hr : 0 < frame.rows) :
    0 ≤ (normalizeArea area frame).x ∧ 0 ≤ (normalizeArea area frame).y ∧
      0 < (normalizeArea area frame).width ∧ 0 < (normalizeArea area frame).height := by
  have hc2 : (0 : Int) < (frame.cols : Int) := by exact_mod_cast hc
  have hr2 : (0 : Int) < (frame.rows : Int) := by exact_mod_cast hr
  rw [normalizeArea_fields]
  obtain ⟨x, y, w, h⟩ := area
  simp only
  refine ⟨?_, ?_, ?_, ?_⟩ <;> · split <;> omega

/-- C6.  For a frame with `cols > 0` and `rows > 0` the normalised zone has
`x >= 0`, `y >= 0`, `width > 0`, `height > 0`; a non-positive width becomes
`cols`, a non-positive height becomes `rows`, an origin with a negative
coordinate becomes `(0,0)`, every other field keeps its value, and a zone that
is already valid is returned unchanged. -/
theorem normalizeArea_spec (area : Rect) (frame : Mat) (hc : 0 < frame.cols)
    (hr : 0 < frame.rows) :
    0 ≤ (normalizeArea area frame).x ∧ 0 ≤ (normalizeArea area frame).y ∧
      0 < (normalizeArea area frame).width ∧ 0 < (normalizeArea area frame).height ∧
      (area.width ≤ 0 → (normalizeArea area frame).width = (frame.cols : Int)) ∧
      (0 < area.width → (normalizeArea area frame).width = area.width) ∧
      (area.height ≤ 0 → (normalizeArea area frame).height = (frame.rows : Int)) ∧
      (0 < area.height → (normalizeArea area frame).height = area.height) ∧
      (area.x < 0 ∨ area.y < 0 →
        (normalizeArea area frame).x = 0 ∧ (normalizeArea area frame).y = 0) ∧
      (0 ≤ area.x → 0 ≤ area.y →
        (normalizeArea area frame).x = area.x ∧ (normalizeArea area frame).y = area.y) ∧
      (0 ≤ area.x → 0 ≤ area.y → 0 < area.width → 0 < area.height →
        normalizeArea area frame = area) := by
  obtain ⟨hx0, hy0, hw0, hh0⟩ := normalizeArea_pos area frame hc hr
  refine ⟨hx0, hy0, hw0, hh0, ?_⟩
  rw [normalizeArea_fields]
  obtain ⟨x, y, w, h⟩ := area
  simp only
  refine ⟨?_, ?_, ?_, ?_, ?_, ?_, ?_⟩
  · intro hw; rw [if_pos hw]
  · intro hw; rw [if_neg (by omega)]
  · intro hh; rw [if_pos hh]
  · intro hh; rw [if_neg (by omega)]
  · intro ho; simp only [if_pos ho, and_self]
  · intro hx hy
    have hn : ¬ (x < 0 ∨ y < 0) := by omega
    simp only [if_neg hn, and_self]
  · intro hx hy hw hh
    have hn : ¬ (x < 0 ∨ y < 0) := by omega
    have hnw : ¬ w ≤ 0 := by omega
    have hnh : ¬ h ≤ 0 := by omega
    simp only [if_neg hn, if_neg hnw, if_neg hnh]

/-- Witness for C6: the zone `(-5, 7, 0, 30)` in a 640x480 frame becomes
`(0, 0, 640, 30)`. -/
theorem normalizeArea_spec_witness :
    (0 < (⟨480, 640, [0]⟩ : Mat).cols ∧ 0 < (⟨480, 640, [0]⟩ : Mat).rows) ∧
      normalizeArea ⟨-5, 7, 0, 30⟩ ⟨480, 640, [0]⟩ = ⟨0, 0, 640, 30⟩ ∧
      0 < (normalizeArea ⟨-5, 7, 0, 30⟩ ⟨480, 640, [0]⟩).width :=
  ⟨⟨by decide, by decide⟩, by decide,
    (normalizeArea_spec ⟨-5, 7, 0, 30⟩ ⟨480, 640, [0]⟩ (by decide) (by decide)).2.2.1⟩

/-- C5 (counterexample).  In a 640x480 frame the configured zone `(10,20,0,0)`
is normalised to `(10,20,640,480)`, not to the full-frame zone, and the box
`(0,0,5,5)`, fully inside the frame, leaves the verdict at `safe = true`,
`alert = false`; with the zone `(0,0,0,0)`, normalised to the full frame, the
box `(5,5,0,0)` has all its edges inside the frame and the verdict is again
`safe = true`, `alert = false`. -/
theorem normalizeArea_zero_size_not_full_frame :
    normalizeArea ⟨10, 20, 0, 0⟩ ⟨480, 640, [0]⟩ = ⟨10, 20, 640, 480⟩ ∧
      normalizeArea ⟨10, 20, 0, 0⟩ ⟨480, 640, [0]⟩ ≠ ⟨0, 0, 640, 480⟩ ∧
      Rect.within ⟨0, 0, 5, 5⟩ ⟨0, 0, 640, 480⟩ ∧
      personLoop [⟨0, 0, 5, 5⟩] (normalizeArea ⟨10, 20, 0, 0⟩ ⟨480, 640, [0]⟩) 640 480
        = ⟨true, false⟩ ∧
      normalizeArea ⟨0, 0, 0, 0⟩ ⟨480, 640, [0]⟩ = ⟨0, 0, 640, 480⟩ ∧
      Rect.within ⟨5, 5, 0, 0⟩ ⟨0, 0, 640, 480⟩ ∧
      personLoop [⟨5, 5, 0, 0⟩] (normalizeArea ⟨0, 0, 0, 0⟩ ⟨480, 640, [0]⟩) 640 480
        = ⟨true, false⟩ := by
  decide

/-- C5 (amended).  A configured zone of width 0 and height 0 is normalised to
`(x, y, cols, rows)` when its origin `(x, y)` has no negative coordinate and to
`(0, 0, cols, rows)` when it has one; so when the origin is `(0,0)` or has a
negative coordinate the zone is the full frame, and then every list of
detections containing a box of positive width and height that lies fully
inside the frame gives the verdict `safe = false`, `alert = true`. -/
theorem normalizeArea_zero_size (area : Rect) (frame : Mat) (hw : area.width = 0)
    (hh : area.height = 0) :
    (0 ≤ area.x → 0 ≤ area.y →
        normalizeArea area frame = ⟨area.x, area.y, (frame.cols : Int), (frame.rows : Int)⟩) ∧
      (area.x < 0 ∨ area.y < 0 ∨ (area.x = 0 ∧ area.y = 0) →
        normalizeArea area frame = ⟨0, 0, (frame.cols : Int), (frame.rows : Int)⟩ ∧
          ∀ (persons : List Rect) (r : Rect), r ∈ persons → 0 < r.width → 0 < r.height →
            r.within ⟨0, 0, (frame.cols : Int), (frame.rows : Int)⟩ →
            personLoop persons (normalizeArea area frame) frame.cols frame.rows
              = ⟨false, true⟩) := by
  have hfields := normalizeArea_fields area frame
  rw [hw, hh] at hfields
  simp only [le_refl, if_true] at hfields
  refine ⟨?_, ?_⟩
  · intro hx hy
    have hn : ¬ (area.x < 0 ∨ area.y < 0) := by omega
    rw [hfields]
    simp only [if_neg hn]
  · intro ho
    have hfull : normalizeArea area frame = ⟨0, 0, (frame.cols : Int), (frame.rows : Int)⟩ := by
      rw [hfields]
      by_cases hneg : area.x < 0 ∨ area.y < 0
      · simp only [if_pos hneg]
      · have hx : area.x = 0 := by omega
        have hy : area.y = 0 := by omega
        simp only [if_neg hneg]
        rw [hx, hy]
    refine ⟨hfull, ?_⟩
    intro persons r hr hrw hrh hin
    rw [hfull, personLoop_eq, if_pos]
    rw [List.any_eq_true]
    refine ⟨r, hr, ?_⟩
    have h := (Rect.inter_eq_self_iff r _ hrw hrh).2 hin
    simp [inFrame, inArea, h]

/-- Witness for C5 (amended): the zone `(-3, 4, 0, 0)` in a 640x480 frame and
the single detection `(10, 10, 20, 20)`. -/
theorem normalizeArea_zero_size_witness :
    normalizeArea ⟨-3, 4, 0, 0⟩ ⟨480, 640, [0]⟩ = ⟨0, 0, 640, 480⟩ ∧
      personLoop [⟨10, 10, 20, 20⟩] (normalizeArea ⟨-3, 4, 0, 0⟩ ⟨480, 640, [0]⟩) 640 480
        = ⟨false, true⟩ :=
  ⟨by decide,
    ((normalizeArea_zero_size ⟨-3, 4, 0, 0⟩ ⟨480, 640, [0]⟩ rfl rfl).2
      (Or.inl (by decide))).2 [⟨10, 10, 20, 20⟩] ⟨10, 10, 20, 20⟩ (by simp) (by decide)
      (by decide) (by decide)⟩

/-! ## Shared status -/

/-- Every verdict of `frameRunner` has `safe == !alert`. -/
theorem frameVerdict_safe_eq_not_alert (c : ℚ) (frame next : Mat) (result : List DetectionRow)
    (area : Rect) :
    (frameVerdict c frame next result area).safe
      = !(frameVerdict c frame next result area).alert :=
  personLoop_safe_eq_not_alert _ _ _ _

/-- The status after a history that ends with the write `op`. -/
theorem runInfoOps_append_singleton (ops : List InfoOp) (op : InfoOp) :
    runInfoOps (ops ++ [op]) = op.apply (runInfoOps ops) := by
  simp [runInfoOps, List.foldl_append]

/-- After any history of writes, `safe` and `alert` are not both true. -/
theorem runInfoOps_not_both (ops : List InfoOp) :
    ¬ ((runInfoOps ops).safe = true ∧ (runInfoOps ops).alert = true) := by
  induction ops using List.reverseRecOn with
  | nil => simp [runInfoOps, currentInfo]
  | append_singleton pre op _ =>
    rw [runInfoOps_append_singleton]
    cases op with
    | update c frame next result area =>
      simp only [InfoOp.apply, updateInfo]
      rw [frameVerdict_safe_eq_not_alert]
      cases (frameVerdict c frame next result area).alert <;> simp
    | reset => simp [InfoOp.apply, resetInfo]

/-- C2.  In every state of `currentInfo` reached from `safe = true`,
`alert = false` by `updateInfo` calls carrying a `frameRunner` verdict and by
`resetInfo` calls, `safe` and `alert` are never both true; when the history is
empty or ends with such an update, the snapshot of `getCurrentInfo` has
`safe == !alert`; and both fields are false only when the history ends with
`resetInfo`. -/
theorem currentInfo_invariant (ops : List InfoOp) :
    ¬ ((getCurrentInfo (runInfoOps ops)).safe = true ∧
        (getCurrentInfo (runInfoOps ops)).alert = true) ∧
      (ops = [] ∨ (∃ pre op, ops = pre ++ [op] ∧ op.isUpdate = true) →
        (getCurrentInfo (runInfoOps ops)).safe = !(getCurrentInfo (runInfoOps ops)).alert) ∧
      ((getCurrentInfo (runInfoOps ops)).safe = false ∧
          (getCurrentInfo (runInfoOps ops)).alert = false →
        ∃ pre, ops = pre ++ [InfoOp.reset]) := by
  unfold getCurrentInfo
  refine ⟨runInfoOps_not_both ops, ?_, ?_⟩
  · rintro (rfl | ⟨pre, op, rfl, hop⟩)
    · simp [runInfoOps, currentInfo]
    · rw [runInfoOps_append_singleton]
      cases op with
      | update c frame next result area =>
        simp only [InfoOp.apply, updateInfo]
        exact frameVerdict_safe_eq_not_alert c frame next result area
      | reset => simp [InfoOp.isUpdate] at hop
  · induction ops using List.reverseRecOn with
    | nil => simp [runInfoOps, currentInfo]
    | append_singleton pre op _ =>
      rw [runInfoOps_append_singleton]
      cases op with
      | update c frame next result area =>
        simp only [InfoOp.apply, updateInfo]
        rw [frameVerdict_safe_eq_not_alert]
        cases (frameVerdict c frame next result area).alert <;> simp
      | reset =>
        intro _
        exact ⟨pre, rfl⟩

/-- Witness for C2: a reset followed by an update whose frame has one
detection inside the zone. -/
theorem currentInfo_invariant_witness :
    getCurrentInfo (runInfoOps
        [InfoOp.reset,
          InfoOp.update (1 / 2) ⟨480, 640, [0]⟩ ⟨480, 640, [0]⟩
            [⟨0, 1, 9 / 10, 1 / 4, 1 / 4, 1 / 2, 1 / 2⟩] ⟨100, 100, 400, 300⟩])
        = ⟨false, true⟩ ∧
      (getCurrentInfo (runInfoOps
        [InfoOp.reset,
          InfoOp.update (1 / 2) ⟨480, 640, [0]⟩ ⟨480, 640, [0]⟩
            [⟨0, 1, 9 / 10, 1 / 4, 1 / 4, 1 / 2, 1 / 2⟩] ⟨100, 100, 400, 300⟩])).safe
        = !(getCurrentInfo (runInfoOps
        [InfoOp.reset,
          InfoOp.update (1 / 2) ⟨480, 640, [0]⟩ ⟨480, 640, [0]⟩
            [⟨0, 1, 9 / 10, 1 / 4, 1 / 4, 1 / 2, 1 / 2⟩] ⟨100, 100, 400, 300⟩])).alert :=
  ⟨by decide!,
    (currentInfo_invariant _).2.1 (Or.inr ⟨[InfoOp.reset], InfoOp.update (1 / 2) ⟨480, 640, [0]⟩
      ⟨480, 640, [0]⟩ [⟨0, 1, 9 / 10, 1 / 4, 1 / 4, 1 / 2, 1 / 2⟩] ⟨100, 100, 400, 300⟩,
      rfl, rfl⟩)⟩

/-! ## Frame queue -/

/-- The queue never holds more than one image. -/
theorem runQueueOps_length_le_one (ops : List QueueOp) : (runQueueOps ops).length ≤ 1 := by
  induction ops using List.reverseRecOn with
  | nil => simp [runQueueOps]
  | append_singleton pre op ih =>
    have hstep : runQueueOps (pre ++ [op]) = QueueOp.apply (runQueueOps pre) op := by
      simp [runQueueOps, List.foldl_append]
    rw [hstep]
    cases op with
    | add img =>
      cases hq : runQueueOps pre with
      | nil => simp [QueueOp.apply, addImage]
      | cons a rest =>
        rw [hq] at ih
        simpa [QueueOp.apply, addImage] using ih
    | next =>
      cases hq : runQueueOps pre with
      | nil => simp [QueueOp.apply, nextImageAvailable]
      | cons a rest =>
        rw [hq] at ih
        simp only [List.length_cons] at ih
        simp only [QueueOp.apply, nextImageAvailable]
        omega

/-- C3.  `addImage` and `nextImageAvailable` form a single-slot buffer:
(1) `addImage(f)` on the empty queue followed by `nextImageAvailable` returns
`f` and leaves the queue empty; (2) `addImage(g)` on a queue holding `f` (or
any non-empty queue) changes nothing; (3) `nextImageAvailable` on the empty
queue returns the default, empty `Mat` and leaves the queue empty; and after
any sequence of calls from the empty queue at most one image is held. -/
theorem frame_queue_single_slot :
    (∀ f : Mat, addImage f [] = [f] ∧ nextImageAvailable (addImage f []) = (f, [])) ∧
      (∀ f g : Mat, addImage g [f] = [f]) ∧
      (∀ (g : Mat) (q : List Mat), q ≠ [] → addImage g q = q) ∧
      (nextImageAvailable [] = (Mat.none, []) ∧ Mat.none.empty = true) ∧
      (∀ ops : List QueueOp, (runQueueOps ops).length ≤ 1) := by
  refine ⟨?_, ?_, ?_, ?_, runQueueOps_length_le_one⟩
  · intro f
    simp [addImage, nextImageAvailable]
  · intro f g
    simp [addImage]
  · intro g q hq
    cases q with
    | nil => exact absurd rfl hq
    | cons a rest => simp [addImage]
  · exact ⟨rfl, rfl⟩

/-- Witness for C3: adding a second image to a queue that holds one. -/
theorem frame_queue_single_slot_witness :
    addImage ⟨480, 640, [2]⟩ [⟨480, 640, [1]⟩] = [⟨480, 640, [1]⟩] :=
  frame_queue_single_slot.2.2.1 ⟨480, 640, [2]⟩ [⟨480, 640, [1]⟩] (by decide)

/-! ## Payload -/

/-- C4 (evaluation of the code).  The payload built by `publishMQTTMessage`
carries the digit written by the stream for a `bool`: it is
`{"Safe": "1"}` for `safe = true` and `{"Safe": "0"}` for `safe = false`, and
in neither case the text `{"Safe": "true"}` or `{"Safe": "false"}`. -/
theorem payload_writes_digit (info : AssemblyInfo) :
    payload info
        = (if info.safe then "\x7b\"Safe\": \"1\"\x7d" else "\x7b\"Safe\": \"0\"\x7d") ∧
      payload info ≠ "\x7b\"Safe\": \"true\"\x7d" ∧
      payload info ≠ "\x7b\"Safe\": \"false\"\x7d" := by
  obtain ⟨safe, alert⟩ := info
  cases safe <;> cases alert <;> decide

/-! ## Shutdown flag -/

/-- The driving loop is left exactly on an empty frame, on the key 27, or on
a caught signal. -/
theorem mainIteration_exited_iff (s : MainState) (inp : MainInput) :
    (mainIteration s inp).exited = true ↔
      (inp.captured.empty = true ∨ inp.keyPressed = 27 ∨ inp.sig_caught ≠ 0) := by
  unfold mainIteration mainHandOff
  by_cases he : inp.captured.empty = true
  · simp [he]
  · by_cases h99 : inp.keyPressed = 99
    · by_cases hs : inp.sig_caught = 0 <;> simp [he, h99, hs]
    · by_cases h27 : inp.keyPressed = 27
      · simp [he, h27]
      · by_cases hs : inp.sig_caught = 0 <;> simp [he, h99, h27, hs]

/-- The flag after an iteration of the driving loop: `false` when the loop was
left, unchanged otherwise. -/
theorem mainIteration_keepRunning (s : MainState) (inp : MainInput) :
    (mainIteration s inp).state.keepRunning =
      if (mainIteration s inp).exited then false else s.keepRunning := by
  unfold mainIteration mainHandOff
  by_cases he : inp.captured.empty = true
  · simp [he]
  · by_cases h99 : inp.keyPressed = 99
    · by_cases hs : inp.sig_caught = 0 <;> simp [he, h99, hs]
    · by_cases h27 : inp.keyPressed = 27
      · simp [he, h27]
      · by_cases hs : inp.sig_caught = 0 <;> simp [he, h99, h27, hs]

/-- C7.  Over the flag `keepRunning`: an iteration of the driving loop never
turns `false` into `true`; an iteration of `frameRunner` or of `messageRunner`
runs only while the flag is `true` and leaves it unchanged; an iteration of
the driving loop sets the flag to `false` and leaves the loop if and only if
the captured frame is empty, the key is 27, or `sig_caught != 0`, and
otherwise keeps the flag and stays in the loop; `handle_sigterm` sets
`sig_caught` to 1 for `SIGTERM` and leaves it unchanged for any other
signal. -/
theorem keepRunning_shutdown :
    (∀ (s : MainState) (inp : MainInput), s.keepRunning = false →
        (mainIteration s inp).state.keepRunning = false) ∧
      (∀ (c : ℚ) (frame : Mat) (area : Rect) (result : List DetectionRow) (k : Bool)
          (q : List Mat) (cur : AssemblyInfo) (out : Bool × List Mat × AssemblyInfo),
        frameRunnerIteration c frame area result k q cur = some out →
          k = true ∧ out.1 = k) ∧
      (∀ (k : Bool) (cur : AssemblyInfo) (published : List (String × String))
          (out : Bool × List (String × String)),
        messageRunnerIteration k cur published = some out → k = true ∧ out.1 = k) ∧
      (∀ (s : MainState) (inp : MainInput),
        ((mainIteration s inp).state.keepRunning = false ∧ (mainIteration s inp).exited = true)
          ↔ (inp.captured.empty = true ∨ inp.keyPressed = 27 ∨ inp.sig_caught ≠ 0)) ∧
      (∀ (s : MainState) (inp : MainInput),
        ¬ (inp.captured.empty = true ∨ inp.keyPressed = 27 ∨ inp.sig_caught ≠ 0) →
          (mainIteration s inp).exited = false ∧
            (mainIteration s inp).state.keepRunning = s.keepRunning) ∧
      (∀ sig_caught : Int, handle_sigterm SIGTERM sig_caught = 1) ∧
      (∀ signum sig_caught : Int, signum ≠ SIGTERM →
        handle_sigterm signum sig_caught = sig_caught) := by
  refine ⟨?_, ?_, ?_, ?_, ?_, ?_, ?_⟩
  · intro s inp hk
    rw [mainIteration_keepRunning, hk]
    simp
  · intro c frame area result k q cur out h
    unfold frameRunnerIteration at h
    cases k with
    | false => simp at h
    | true =>
      refine ⟨rfl, ?_⟩
      simp only [if_true] at h
      split at h <;> · cases h; rfl
  · intro k cur published out h
    unfold messageRunnerIteration at h
    cases k with
    | false => simp at h
    | true =>
      simp only [if_true, Option.some.injEq] at h
      subst h
      exact ⟨rfl, rfl⟩
  · intro s inp
    rw [← mainIteration_exited_iff s inp, mainIteration_keepRunning]
    constructor
    · exact fun h => h.2
    · intro h
      exact ⟨by simp [h], h⟩
  · intro s inp hn
    have hex : (mainIteration s inp).exited = false := by
      rw [← mainIteration_exited_iff s inp] at hn
      simpa using hn
    refine ⟨hex, ?_⟩
    rw [mainIteration_keepRunning, hex]
    simp
  · intro c
    simp [handle_sigterm]
  · intro signum c h
    simp [handle_sigterm, h]

/-- Witness for C7: a stopped program that captures a frame with no key and
no signal stays stopped, and the iteration does not leave the loop. -/
theorem keepRunning_shutdown_witness :
    (mainIteration ⟨Mat.none, ⟨0, 0, 0, 0⟩, false, []⟩
        ⟨⟨480, 640, [0]⟩, -1, ⟨0, 0, 0, 0⟩, 0⟩).state.keepRunning = false ∧
      (mainIteration ⟨Mat.none, ⟨0, 0, 0, 0⟩, true, []⟩
        ⟨⟨480, 640, [0]⟩, -1, ⟨0, 0, 0, 0⟩, 0⟩).exited = false :=
  ⟨keepRunning_shutdown.1 ⟨Mat.none, ⟨0, 0, 0, 0⟩, false, []⟩
      ⟨⟨480, 640, [0]⟩, -1, ⟨0, 0, 0, 0⟩, 0⟩ rfl,
    (keepRunning_shutdown.2.2.2.2.1 ⟨Mat.none, ⟨0, 0, 0, 0⟩, true, []⟩
      ⟨⟨480, 640, [0]⟩, -1, ⟨0, 0, 0, 0⟩, 0⟩ (by decide)).1⟩

/-! ## messageRunner -/

/-- Iterations that see `keepRunning = true` each append one publish call for
the status they read, then the loop goes on with the remaining observations. -/
theorem messageRunner_running (infos : List AssemblyInfo) (rest : List Tick)
    (published : List (String × String)) :
    messageRunner (infos.map (fun i => (⟨true, i⟩ : Tick)) ++ rest) published =
      messageRunner rest
        (published ++ infos.map (fun i => (topic, payload (getCurrentInfo i)))) := by
  induction infos generalizing published with
  | nil => simp
  | cons i tail ih =>
    rw [List.map_cons, List.cons_append, messageRunner]
    simp only [↓reduceIte]
    rw [ih]
    simp [publishMQTTMessage, List.append_assoc]

/-- C8.  When `messageRunner` sees `keepRunning = true` in its first `k`
iterations, reading the statuses `infos` (one per iteration), and then sees
`keepRunning = false`, it makes exactly `k` publish calls, all on the topic
`machine/zone`, the i-th with the payload of the i-th status read (equal
statuses are published again), and stops; an evaluation of the loop condition
that sees `false` makes no further publish call, whatever follows. -/
theorem messageRunner_publishes (infos : List AssemblyInfo) (stop : Tick) (rest : List Tick)
    (hstop : stop.keepRunning = false) :
    messageRunner (infos.map (fun i => (⟨true, i⟩ : Tick)) ++ stop :: rest) []
        = (infos.map (fun i => ("machine/zone", payload (getCurrentInfo i))), true) ∧
      (messageRunner (infos.map (fun i => (⟨true, i⟩ : Tick)) ++ stop :: rest) []).1.length
        = infos.length ∧
      (messageRunner (infos.map (fun i => (⟨true, i⟩ : Tick))) []).1
        = infos.map (fun i => ("machine/zone", payload (getCurrentInfo i))) ∧
      (∀ published : List (String × String),
        messageRunner (stop :: rest) published = (published, true)) := by
  have hhalt : ∀ published : List (String × String),
      messageRunner (stop :: rest) published = (published, true) := by
    intro published
    simp [messageRunner, hstop]
  have hmain : messageRunner (infos.map (fun i => (⟨true, i⟩ : Tick)) ++ stop :: rest) []
      = (infos.map (fun i => ("machine/zone", payload (getCurrentInfo i))), true) := by
    rw [messageRunner_running, hhalt]
    simp [topic]
  refine ⟨hmain, ?_, ?_, hhalt⟩
  · rw [hmain]
    simp
  · have h := messageRunner_running infos [] []
    rw [List.append_nil] at h
    rw [h]
    simp [messageRunner, topic]

/-- Witness for C8: two iterations reading the same status, then a stop. -/
theorem messageRunner_publishes_witness :
    messageRunner [⟨true, ⟨true, false⟩⟩, ⟨true, ⟨true, false⟩⟩, ⟨false, ⟨false, true⟩⟩,
        ⟨true, ⟨false, true⟩⟩] []
      = ([("machine/zone", payload ⟨true, false⟩), ("machine/zone", payload ⟨true, false⟩)],
          true) :=
  (messageRunner_publishes [⟨true, false⟩, ⟨true, false⟩] ⟨false, ⟨false, true⟩⟩
    [⟨true, ⟨false, true⟩⟩] rfl).1

/-! ## Zone at the hand-off -/

/-- An iteration of the driving loop that reaches `addImage` without the key
`c` hands the frame over with a normalised zone. -/
theorem mainIteration_zone_normalised (s : MainState) (inp : MainInput) (z : Rect)
    (hkey : inp.keyPressed ≠ 99) (hz : (mainIteration s inp).zoneAtAddImage = some z) :
    0 ≤ z.x ∧ 0 ≤ z.y ∧ 0 < z.width ∧ 0 < z.height := by
  unfold mainIteration mainHandOff at hz
  by_cases he : inp.captured.empty = true
  · simp [he] at hz
  · have hne : inp.captured.rows * inp.captured.cols ≠ 0 := by
      intro h0
      apply he
      simp [Mat.empty, h0]
    have hc : 0 < inp.captured.cols := Nat.pos_of_ne_zero (fun h => hne (by simp [h]))
    have hr : 0 < inp.captured.rows := Nat.pos_of_ne_zero (fun h => hne (by simp [h]))
    have hspec := normalizeArea_pos s.area inp.captured hc hr
    by_cases h27 : inp.keyPressed = 27
    · simp [he, hkey, h27] at hz
    · by_cases hs : inp.sig_caught = 0
      · simp [he, hkey, h27, hs] at hz
        subst hz
        exact hspec
      · simp [he, hkey, h27, hs] at hz
        subst hz
        exact hspec

/-- C9 (evaluation of the code at a reselect iteration).  With a 640x480
frame, zone `(100,100,50,50)`, key `c` (99) and `selectROI` returning
`(0,0,0,0)`, the iteration reaches `addImage`, stays in the loop, and the zone
at the hand-off is `(0,0,0,0)`: its width and height are not positive. -/
theorem mainIteration_reselect_zone_not_normalised :
    (mainIteration ⟨Mat.none, ⟨100, 100, 50, 50⟩, true, []⟩
        ⟨⟨480, 640, [0]⟩, 99, ⟨0, 0, 0, 0⟩, 0⟩).zoneAtAddImage = some ⟨0, 0, 0, 0⟩ ∧
      (mainIteration ⟨Mat.none, ⟨100, 100, 50, 50⟩, true, []⟩
        ⟨⟨480, 640, [0]⟩, 99, ⟨0, 0, 0, 0⟩, 0⟩).state.nextImage = [⟨480, 640, [0]⟩] ∧
      (mainIteration ⟨Mat.none, ⟨100, 100, 50, 50⟩, true, []⟩
        ⟨⟨480, 640, [0]⟩, 99, ⟨0, 0, 0, 0⟩, 0⟩).state.area = ⟨0, 0, 0, 0⟩ ∧
      (mainIteration ⟨Mat.none, ⟨100, 100, 50, 50⟩, true, []⟩
        ⟨⟨480, 640, [0]⟩, 99, ⟨0, 0, 0, 0⟩, 0⟩).exited = false := by
  decide

end RestrictedZone
